import Mathlib

/-!
Shallow embedding of the EventChain backtesting engine
(src/datahandler.py, src/portfolio.py, src/strategy.py, src/main.py).

Machine conventions:
* dates are day numbers (ℤ); a pandas Timedelta difference in days is plain
  integer subtraction;
* prices and cash are exact rationals (ℚ);
* Python dicts keyed by symbol are association lists List (String × _);
  a KeyError is modelled by an Option-valued lookup or update;
* the shared event queue is a List (Option Event): Queue.put appends one
  element, and the element may be Python None (update_signal can put None);
* a Python function that can raise an uncaught exception is embedded as an
  Option-valued function, none meaning the exception propagates.
-/

namespace EventChain

/-- Timestamps in the source are heterogeneous: the portfolio start date is a
plain string (main.py line 24), while bar dates are pandas timestamps
(modelled as integer day numbers). -/
inductive DTime where
  | str (s : String)
  | day (d : ℤ)
deriving DecidableEq, Repr

/-- One OHLCV bar, the dict produced by HistoricCSVDataHandler._get_new_bar
(datahandler.py lines 111-118).  The docstring tuple layout is
(symbol, datetime, open, low, high, close, volume), so positional index 5
is the Close field. -/
structure Bar where
  Date : ℤ
  Open : ℚ
  High : ℚ
  Low : ℚ
  Close : ℚ
  Volume : ℚ
deriving DecidableEq, Repr

/-- Modelled from the spec: event.py is not among the provided sources.
SignalEvent carries symbol, datetime, signal_type in LONG/SHORT/EXIT and
strength in the unit interval (spec section 3).  Its type tag is always
the string SIGNAL. -/
structure SignalEvent where
  symbol : String
  datetime : DTime
  signal_type : String
  strength : ℚ
deriving DecidableEq, Repr

/-- Modelled from the spec: event.py is not among the provided sources.
OrderEvent carries symbol, order_type, quantity and direction in BUY/SELL
(spec section 3). -/
structure OrderEvent where
  symbol : String
  order_type : String
  quantity : ℤ
  direction : String
deriving DecidableEq, Repr

/-- Modelled from the spec: event.py is not among the provided sources.
FillEvent carries symbol, datetime, exchange, quantity, direction,
fill_cost and commission (spec section 3). -/
structure FillEvent where
  symbol : String
  datetime : DTime
  exchange : String
  quantity : ℤ
  direction : String
  fill_cost : ℚ
  commission : ℚ
deriving DecidableEq, Repr

/-- Modelled from the spec: the event taxonomy is a tagged union of the four
kinds (spec section 3); dispatch in main.py matches on the type tag. -/
inductive Event where
  | market
  | signal (s : SignalEvent)
  | order (o : OrderEvent)
  | fill (f : FillEvent)
deriving DecidableEq, Repr

/-- Update the value stored under a key of a Python dict; none models the
KeyError raised when the key is absent. -/
def updateEntry (k : String) (f : α → α) : List (String × α) → Option (List (String × α))
  | [] => none
  | (k', v) :: rest =>
      if k' = k then some ((k', f v) :: rest)
      else (updateEntry k f rest).map (fun r => (k', v) :: r)

/-- Replace the value stored under a key, leaving the list unchanged when the
key is absent (used only after a successful lookup of the same key). -/
def setEntry (k : String) (v : α) : List (String × α) → List (String × α)
  | [] => []
  | (k', v') :: rest =>
      if k' = k then (k', v) :: rest
      else (k', v') :: setEntry k v rest

/-- Evaluate an Option-valued accessor on every symbol of a list, failing as a
whole as soon as one access raises; this is how a Python dict comprehension
over the symbol list behaves. -/
def lookupAll (f : String → Option α) : List String → Option (List (String × α))
  | [] => some []
  | s :: rest =>
      match f s with
      | none => none
      | some v => (lookupAll f rest).map (fun r => (s, v) :: r)

/-- Sum of the values of a symbol-keyed dict of market values. -/
def sumValues (l : List (String × ℚ)) : ℚ :=
  l.foldl (fun t x => t + x.2) 0

/-- State of HistoricCSVDataHandler (datahandler.py lines 44-72):
symbol_data holds the not-yet-consumed remainder of each symbol's bar stream
(the iterrows iterator), latest_symbol_data the bars already seen. -/
structure HistoricCSVDataHandler where
  symbol_list : List String
  symbol_data : List (String × List Bar)
  latest_symbol_data : List (String × List Bar)
  continue_backtest : Bool
  events : List (Option Event)
deriving DecidableEq, Repr

/-- HistoricCSVDataHandler.get_latest_bars (datahandler.py lines 121-130):
returns the last N bars seen for the symbol; a KeyError is caught, a message
printed and Python None returned, modelled as none. -/
def get_latest_bars (h : HistoricCSVDataHandler) (symbol : String) (N : Nat) : Option (List Bar) :=
  (h.latest_symbol_data.lookup symbol).map (fun l => l.drop (l.length - N))

/-- One row of the all_positions matrix: a datetime plus one signed integer
position per symbol (portfolio.py lines 79-86). -/
structure PosSnap where
  datetime : DTime
  positions : List (String × ℤ)
deriving DecidableEq, Repr

/-- The current_holdings dict (portfolio.py lines 109-119): per-symbol market
value plus cash, cumulative commission and total. -/
structure Holdings where
  values : List (String × ℚ)
  cash : ℚ
  commission : ℚ
  total : ℚ
deriving DecidableEq, Repr

/-- One row of the all_holdings matrix (portfolio.py lines 97-107). -/
structure HoldSnap where
  datetime : DTime
  values : List (String × ℚ)
  cash : ℚ
  commission : ℚ
  total : ℚ
deriving DecidableEq, Repr

/-- State of NaivePortfolio (portfolio.py lines 50-77). -/
structure NaivePortfolio where
  symbol_list : List String
  start_date : String
  initial_capital : ℚ
  all_positions : List PosSnap
  current_positions : List (String × ℤ)
  all_holdings : List HoldSnap
  current_holdings : Holdings
  events : List (Option Event)
deriving DecidableEq, Repr

/-- NaivePortfolio.construct_all_positions (portfolio.py lines 79-86). -/
def construct_all_positions (symbol_list : List String) (start_date : String) : List PosSnap :=
  [{ datetime := DTime.str start_date, positions := symbol_list.map (fun s => (s, 0)) }]

/-- NaivePortfolio.construct_current_positions (portfolio.py lines 88-95). -/
def construct_current_positions (symbol_list : List String) : List (String × ℤ) :=
  symbol_list.map (fun s => (s, 0))

/-- NaivePortfolio.construct_all_holdings (portfolio.py lines 97-107). -/
def construct_all_holdings (symbol_list : List String) (start_date : String)
    (initial_capital : ℚ) : List HoldSnap :=
  [{ datetime := DTime.str start_date,
     values := symbol_list.map (fun s => (s, 0)),
     cash := initial_capital, commission := 0, total := initial_capital }]

/-- NaivePortfolio.construct_current_holdings (portfolio.py lines 109-119). -/
def construct_current_holdings (symbol_list : List String) (initial_capital : ℚ) : Holdings :=
  { values := symbol_list.map (fun s => (s, 0)),
    cash := initial_capital, commission := 0, total := initial_capital }

/-- NaivePortfolio.__init__ (portfolio.py lines 50-77): the symbol list is
taken from the bars handler; the four ledgers are built by the construct
helpers. -/
def NaivePortfolio.init (bars : HistoricCSVDataHandler) (events : List (Option Event))
    (start_date : String) (initial_capital : ℚ) : NaivePortfolio :=
  { symbol_list := bars.symbol_list
    start_date := start_date
    initial_capital := initial_capital
    all_positions := construct_all_positions bars.symbol_list start_date
    current_positions := construct_current_positions bars.symbol_list
    all_holdings := construct_all_holdings bars.symbol_list start_date initial_capital
    current_holdings := construct_current_holdings bars.symbol_list initial_capital
    events := events }

/-- Market value of one symbol inside update_timeindex (portfolio.py line 149):
current position times the Close of the latest bar; none models the raised
exception when the bars are absent or empty. -/
def market_value_of (h : HistoricCSVDataHandler) (p : NaivePortfolio) (s : String) : Option ℚ :=
  (p.current_positions.lookup s).bind (fun q =>
    (get_latest_bars h s 1).bind (fun bs =>
      bs.head?.map (fun b => (q : ℚ) * b.Close)))

/-- NaivePortfolio.update_timeindex (portfolio.py lines 121-154).  The code
fetches the latest bar of every symbol, then builds and appends one position
snapshot (its datetime read from the bar of the last loop variable) and one
holdings snapshot (its datetime read from the first symbol's bar; its total is
cash plus the sum of the per-symbol market values).  There is no error
handling: an unavailable bar history makes an indexing expression raise, which
the function (and main loop) never catch; none models that uncaught
exception. -/
def update_timeindex (h : HistoricCSVDataHandler) (p : NaivePortfolio) : Option NaivePortfolio :=
  match p.symbol_list.getLast? with
  | none => none
  | some sLast =>
    ((get_latest_bars h sLast 1).bind (fun bs => bs.head?)).bind (fun bL =>
      (lookupAll (fun s => p.current_positions.lookup s) p.symbol_list).bind (fun dposList =>
        (p.symbol_list.head?.bind (fun s0 =>
            (get_latest_bars h s0 1).bind (fun bs => bs.head?))).bind (fun b0 =>
          (lookupAll (fun s => market_value_of h p s) p.symbol_list).map (fun mvs =>
            { p with
              all_positions := p.all_positions ++
                [{ datetime := DTime.day bL.Date, positions := dposList }]
              all_holdings := p.all_holdings ++
                [{ datetime := DTime.day b0.Date,
                   values := mvs,
                   cash := p.current_holdings.cash,
                   commission := p.current_holdings.commission,
                   total := p.current_holdings.cash + sumValues mvs }] }))))

/-- NaivePortfolio.update_positions_from_fill (portfolio.py lines 156-172):
fill_dir is +1 for BUY, -1 for SELL, 0 otherwise; the symbol's position is
incremented by fill_dir * quantity. -/
def update_positions_from_fill (p : NaivePortfolio) (fill : FillEvent) : Option NaivePortfolio :=
  let fill_dir : ℤ :=
    if fill.direction = "BUY" then 1
    else if fill.direction = "SELL" then -1 else 0
  (updateEntry fill.symbol (fun q => q + fill_dir * fill.quantity) p.current_positions).map
    (fun pos' => { p with current_positions := pos' })

/-- NaivePortfolio.update_holdings_from_fill (portfolio.py lines 174-195):
the cost is fill_dir times the Close price of the symbol's latest bar
(the expression get_latest_bars(fill.symbol)[0][5], position 5 of the bar
tuple) times the quantity; the FillEvent's own fill_cost field is not read.
Cash and total both decrease by cost + commission. -/
def update_holdings_from_fill (h : HistoricCSVDataHandler) (p : NaivePortfolio)
    (fill : FillEvent) : Option NaivePortfolio :=
  let fill_dir : ℤ :=
    if fill.direction = "BUY" then 1
    else if fill.direction = "SELL" then -1 else 0
  match get_latest_bars h fill.symbol 1 with
  | some (b :: _) =>
      let fill_cost : ℚ := b.Close
      let cost : ℚ := (fill_dir : ℚ) * fill_cost * (fill.quantity : ℚ)
      match updateEntry fill.symbol (fun v => v + cost) p.current_holdings.values with
      | none => none
      | some values' =>
          some { p with current_holdings :=
            { values := values'
              commission := p.current_holdings.commission + fill.commission
              cash := p.current_holdings.cash - (cost + fill.commission)
              total := p.current_holdings.total - (cost + fill.commission) } }
  | _ => none

/-- NaivePortfolio.update_fill (portfolio.py lines 197-204): on a FILL event,
update positions then holdings; other event kinds are ignored. -/
def update_fill (h : HistoricCSVDataHandler) (p : NaivePortfolio) (event : Event) :
    Option NaivePortfolio :=
  match event with
  | Event.fill f =>
      (update_positions_from_fill p f).bind (fun p1 => update_holdings_from_fill h p1 f)
  | _ => some p

/-- NaivePortfolio.generate_naive_order (portfolio.py lines 206-234), written
as the same chain of four reassignments of the order variable.  The current
position is read from the current_positions dict (theorems about this
function assume the symbol is present, matching the KeyError-free path). -/
def generate_naive_order (p : NaivePortfolio) (signal : SignalEvent) : Option OrderEvent :=
  let order : Option OrderEvent := none
  let symbol := signal.symbol
  let direction := signal.signal_type
  let strength := signal.strength
  let mkt_quantity : ℤ := Int.floor (100 * strength)
  let cur_quantity : ℤ := (p.current_positions.lookup symbol).getD 0
  let order_type := "MKT"
  let order := if direction = "LONG" ∧ cur_quantity = 0 then
      some { symbol := symbol, order_type := order_type,
             quantity := mkt_quantity, direction := "BUY" } else order
  let order := if direction = "SHORT" ∧ cur_quantity = 0 then
      some { symbol := symbol, order_type := order_type,
             quantity := mkt_quantity, direction := "SELL" } else order
  let order := if direction = "EXIT" ∧ cur_quantity > 0 then
      some { symbol := symbol, order_type := order_type,
             quantity := |cur_quantity|, direction := "SELL" } else order
  let order := if direction = "EXIT" ∧ cur_quantity < 0 then
      some { symbol := symbol, order_type := order_type,
             quantity := |cur_quantity|, direction := "BUY" } else order
  order

/-- NaivePortfolio.update_signal (portfolio.py lines 237-244): on a SIGNAL
event the result of generate_naive_order is put on the queue unconditionally,
so the queued element is None whenever no order applies. -/
def update_signal (p : NaivePortfolio) (event : Event) : NaivePortfolio :=
  match event with
  | Event.signal sig =>
      { p with events := p.events ++ [(generate_naive_order p sig).map Event.order] }
  | _ => p

/-- Body of the per-symbol loop of HistoricCSVDataHandler.update_bars
(datahandler.py lines 138-147): for each symbol in order, pull the next bar
from its stream and append it to latest_symbol_data; when the stream is
exhausted the StopIteration is caught and continue_backtest is set to False.
A missing dict key would raise an uncaught KeyError, modelled as none. -/
def update_bars_go (acc : HistoricCSVDataHandler) : List String → Option HistoricCSVDataHandler
  | [] => some acc
  | s :: rest =>
      match acc.symbol_data.lookup s with
      | none => none
      | some [] => update_bars_go { acc with continue_backtest := false } rest
      | some (bar :: more) =>
          match updateEntry s (fun l => l ++ [bar]) acc.latest_symbol_data with
          | none => none
          | some latest' =>
              update_bars_go
                { acc with symbol_data := setEntry s more acc.symbol_data
                           latest_symbol_data := latest' } rest

/-- HistoricCSVDataHandler.update_bars (datahandler.py lines 133-150): run the
per-symbol loop, then put one MarketEvent on the queue.  The put at line 150
is outside the loop and unconditional, so it happens whether or not any (or
every) symbol's stream was exhausted. -/
def update_bars (h : HistoricCSVDataHandler) : Option HistoricCSVDataHandler :=
  (update_bars_go h h.symbol_list).map
    (fun h' => { h' with events := h'.events ++ [some Event.market] })

/-- Head of the outer simulation loop (main.py lines 28-33): advance the bars
only while continue_backtest holds, otherwise break out of the loop; the
outer none models the break. -/
def loop_step (h : HistoricCSVDataHandler) : Option (Option HistoricCSVDataHandler) :=
  if h.continue_backtest = true then some (update_bars h) else none

/-- One row of a symbol's persistent pattern table (strategy.py lines
114-118 create it with the three boolean columns; pattern_scanner /
get_PriceData / get_ConfDate later add the date, price and confirmation
columns).  An Option field set to none models a missing value (pandas NaN),
which is what dropna tests. -/
structure PatternRow where
  is_detected : Bool := false
  is_confirmed : Bool := false
  is_bought : Bool := false
  top1_date : Option ℤ := none
  neck1_date : Option ℤ := none
  top2_date : Option ℤ := none
  top1_price : Option ℚ := none
  neck1_price : Option ℚ := none
  top2_price : Option ℚ := none
  confirmation_date : Option ℤ := none
  time_for_confirmation : Option ℤ := none
  signal : Option ℤ := none
deriving DecidableEq, Repr

/-- Insertion into a date-sorted extrema series. -/
def insertByDate (x : ℤ × ℚ) : List (ℤ × ℚ) → List (ℤ × ℚ)
  | [] => [x]
  | y :: ys => if x.1 ≤ y.1 then x :: y :: ys else y :: insertByDate x ys

/-- The sort_index step of strategy.py line 205: order the concatenated
minima/maxima series by date. -/
def sortByDate : List (ℤ × ℚ) → List (ℤ × ℚ)
  | [] => []
  | x :: xs => insertByDate x (sortByDate xs)

/-- The four acceptance conditions of one 3-point window of
doubleTop.pattern_scanner (strategy.py lines 212-235): the window spans at
most 100 days, B is among the minima values, A and C are among the maxima
values, B is strictly below both A and C, and A and C differ by at most
one tenth of their mean. -/
def windowAccepted (minima maxima : List (ℤ × ℚ)) (a b c : ℤ × ℚ) : Bool :=
  let window_size : ℤ := c.1 - a.1
  let A := a.2
  let B := b.2
  let C := c.2
  let cond_1 := decide (B ∈ minima.map Prod.snd)
  let cond_2 := decide (A ∈ maxima.map Prod.snd) && decide (C ∈ maxima.map Prod.snd)
  let cond_3 := decide (B < A) && decide (B < C)
  let cond_4 := decide (|A - C| ≤ (A + C) / 2 * (1 / 10))
  !(decide (window_size > 100)) && (cond_1 && cond_2 && cond_3 && cond_4)

/-- The sliding-window loop of doubleTop.pattern_scanner (strategy.py lines
208-239) over the already merged and date-sorted extrema series: every
consecutive 3-point window whose conditions all hold contributes its date
triple. -/
def scanWindows (minima maxima : List (ℤ × ℚ)) : List (ℤ × ℚ) → List (ℤ × ℤ × ℤ)
  | a :: b :: c :: rest =>
      (if windowAccepted minima maxima a b c then [(a.1, b.1, c.1)] else []) ++
        scanWindows minima maxima (b :: c :: rest)
  | _ => []

/-- doubleTop.pattern_scanner (strategy.py lines 196-241): concatenate the
minima and maxima series, sort by date, and scan consecutive 3-point
windows. -/
def pattern_scanner (minima maxima : List (ℤ × ℚ)) : List (ℤ × ℤ × ℤ) :=
  scanWindows minima maxima (sortByDate (minima ++ maxima))

/-- All consecutive 3-point windows of a series, in scan order. -/
def windowsOf : List α → List (α × α × α)
  | a :: b :: c :: rest => (a, b, c) :: windowsOf (b :: c :: rest)
  | _ => []

/-- High price stored at a given date of the accumulated bar data. -/
def highAt (data : List Bar) (d : ℤ) : Option ℚ :=
  (data.find? (fun b => b.Date = d)).map (fun b => b.High)

/-- Low price stored at a given date of the accumulated bar data. -/
def lowAt (data : List Bar) (d : ℤ) : Option ℚ :=
  (data.find? (fun b => b.Date = d)).map (fun b => b.Low)

/-- doubleTop.get_PriceData (strategy.py lines 243-252): turn each scanner
date triple into a pattern row carrying the top/neck dates, the High prices
at the two tops, the Low price at the neck, and is_detected = true. -/
def get_PriceData (data : List Bar) (pattern_list : List (ℤ × ℤ × ℤ)) : List PatternRow :=
  pattern_list.map (fun w =>
    { top1_date := some w.1
      neck1_date := some w.2.1
      top2_date := some w.2.2
      top1_price := highAt data w.1
      neck1_price := lowAt data w.2.1
      top2_price := highAt data w.2.2
      is_detected := true })

/-- The SCANNING branch of doubleTop.calculate_signals (strategy.py lines
148-158): join the freshly detected rows onto the symbol's table when there
are any, then move to CONFIRMING exactly when the sub-table of rows with
is_detected == True is empty (the .empty test at line 157), else stay in
SCANNING. -/
def scanningStep (table new_rows : List PatternRow) : List PatternRow × String :=
  let table' := if new_rows.length ≠ 0 then table ++ new_rows else table
  (table',
   if (table'.filter (fun r => r.is_detected)).isEmpty then "CONFIRMING" else "SCANNING")

/-- The per-row body of doubleTop.get_ConfDate (strategy.py lines 258-273):
take the Close series from top2_date onward (pandas loc slicing includes the
start label), find the first bar whose Close is strictly below neck1_price,
and record its date as confirmation_date together with the day count since
top2_date.  When no such bar exists — or the row lacks its top2_date or
neck1_price, making the loc lookup raise into the bare except — the row's
confirmation_date is set to missing. -/
def confirm_row (data : List Bar) (r : PatternRow) : PatternRow :=
  match r.top2_date, r.neck1_price with
  | some t2, some nk =>
      let data_after_top2 := data.filter (fun b => decide (t2 ≤ b.Date))
      match data_after_top2.find? (fun b => decide (b.Close < nk)) with
      | some b =>
          { r with confirmation_date := some b.Date
                   time_for_confirmation := some (b.Date - t2) }
      | none => { r with confirmation_date := none }
  | _, _ => { r with confirmation_date := none }

/-- Whether a row survives pattern_data.dropna (strategy.py line 278): pandas
drops any row holding at least one NaN, so a row survives only when every
added column holds a value. -/
def rowComplete (r : PatternRow) : Bool :=
  r.top1_date.isSome && r.neck1_date.isSome && r.top2_date.isSome &&
  r.top1_price.isSome && r.neck1_price.isSome && r.top2_price.isSome &&
  r.confirmation_date.isSome && r.time_for_confirmation.isSome && r.signal.isSome

/-- doubleTop.get_ConfDate (strategy.py lines 254-286) acting on the
symbol's persistent table (the DataFrame is mutated in place, so the result
replaces the stored table): when the table is nonempty, compute each row's
confirmation data, set signal = -1 on every row, drop all rows still holding
a missing value (dropna with inplace=True), reset the index, and mark every
surviving row is_confirmed = True when any survive. -/
def get_ConfDate (data : List Bar) (pattern_data : List PatternRow) : List PatternRow :=
  if pattern_data.length ≠ 0 then
    let step1 := pattern_data.map (confirm_row data)
    let step2 := step1.map (fun r => { r with signal := some (-1) })
    let step3 := step2.filter rowComplete
    if step3.length ≠ 0 then step3.map (fun r => { r with is_confirmed := true })
    else step3
  else pattern_data

/-! ### Helper lemmas -/

theorem lookup_map_const {α : Type} (v : α) :
    ∀ (sl : List String) (s : String), s ∈ sl →
      (sl.map (fun x => (x, v))).lookup s = some v
  | a :: t, s, hmem => by
      by_cases h : s = a
      · subst h
        simp [List.lookup]
      · have ht : s ∈ t := (List.mem_cons.mp hmem).resolve_left h
        have hbeq : (s == a) = false := beq_eq_false_iff_ne.mpr h
        simpa [List.lookup, hbeq] using lookup_map_const v t s ht

theorem lookupAll_none {α : Type} (f : String → Option α) :
    ∀ (l : List String) (s : String), s ∈ l → f s = none → lookupAll f l = none
  | a :: t, s, hmem, hf => by
      by_cases h : s = a
      · subst h
        simp [lookupAll, hf]
      · have ht : s ∈ t := (List.mem_cons.mp hmem).resolve_left h
        have ih := lookupAll_none f t s ht hf
        cases hfa : f a with
        | none => simp [lookupAll, hfa]
        | some v => simp [lookupAll, hfa, ih]

theorem bind_fun_none {α β : Type} (o : Option α) :
    (o.bind fun _ => (none : Option β)) = none := by
  cases o <;> rfl

/-! ### C1 -/

/-- The single all-False row a symbol's pattern table starts with
(strategy.py lines 116-118). -/
def initPatternRow : PatternRow := {}

/-- A pattern row as get_PriceData produces it for a detected candidate. -/
def detectedRow : PatternRow :=
  { is_detected := true
    top1_date := some 0, neck1_date := some 5, top2_date := some 9
    top1_price := some 100, neck1_price := some 95, top2_price := some 101 }

/-- C1: the claim says the SCANNING state moves to CONFIRMING exactly when at
least one table row has is_detected == true.  The code (strategy.py line 157)
tests that the sub-table of detected rows is EMPTY, so it does the opposite:
with the initial all-False table and no new candidate the state becomes
CONFIRMING, and with a detected row present the state stays SCANNING.  This
theorem evaluates the embedded SCANNING branch at both inputs, exhibiting the
inverted transition. -/
theorem c1_inverted_transition_eval :
    (scanningStep [initPatternRow] []).2 = "CONFIRMING" ∧
    (scanningStep [initPatternRow] [detectedRow]).2 = "SCANNING" := by
  constructor <;> rfl

/-! ### C3 -/

/-- C3 (amended): update_signal always puts exactly one element on the queue —
the generated OrderEvent when the sizing rule yields one, and Python None when
it yields nothing (the put at portfolio.py line 244 is unconditional). -/
theorem c3_update_signal_enqueues_one (p : NaivePortfolio) (sig : SignalEvent) :
    ((update_signal p (Event.signal sig)).events.length = p.events.length + 1) ∧
    (∀ o, generate_naive_order p sig = some o →
        (update_signal p (Event.signal sig)).events =
          p.events ++ [some (Event.order o)]) ∧
    (generate_naive_order p sig = none →
        (update_signal p (Event.signal sig)).events = p.events ++ [none]) := by
  refine ⟨?_, ?_, ?_⟩
  · simp [update_signal]
  · intro o ho
    simp [update_signal, ho]
  · intro ho
    simp [update_signal, ho]

/-- Portfolio already long 5 shares of AAPL, used for the C3 counterexample. -/
def p3w : NaivePortfolio :=
  { symbol_list := ["AAPL"]
    start_date := "20230215"
    initial_capital := 100000
    all_positions := construct_all_positions ["AAPL"] "20230215"
    current_positions := [("AAPL", 5)]
    all_holdings := construct_all_holdings ["AAPL"] "20230215" 100000
    current_holdings := { values := [("AAPL", 50)], cash := 99950, commission := 0, total := 100000 }
    events := [] }

/-- A LONG signal while the AAPL position is nonzero. -/
def sig3w : SignalEvent :=
  { symbol := "AAPL", datetime := DTime.str "d", signal_type := "LONG", strength := 1 }

/-- C3 counterexample: on a LONG signal with a nonzero position the sizing
rule yields no order, yet update_signal still enqueues one element (Python
None); the claim's "enqueues nothing at all" fails because the queue grows
from [] to a one-element list. -/
theorem c3_counterexample :
    generate_naive_order p3w sig3w = none ∧
    (update_signal p3w (Event.signal sig3w)).events = [none] ∧
    ([none] : List (Option Event)) ≠ [] := by
  refine ⟨rfl, rfl, by decide⟩

/-- C3 witness: the amended theorem applied at the concrete no-order input. -/
theorem c3_witness :
    (update_signal p3w (Event.signal sig3w)).events = p3w.events ++ [none] :=
  (c3_update_signal_enqueues_one p3w sig3w).2.2 rfl

/-! ### C4 -/

/-- C4: generate_naive_order, given the current position q of the signal's
symbol and a strength in the unit interval, returns a BUY of floor(100 x
strength) on LONG while flat, a SELL of floor(100 x strength) on SHORT while
flat, a SELL of abs q on EXIT while long, a BUY of abs q on EXIT while short,
and no order in every other combination (portfolio.py lines 206-234). -/
theorem c4_generate_naive_order_spec (p : NaivePortfolio) (sig : SignalEvent) (q : ℤ)
    (hq : p.current_positions.lookup sig.symbol = some q)
    (h0 : 0 ≤ sig.strength) (h1 : sig.strength ≤ 1) :
    (sig.signal_type = "LONG" → q = 0 →
      generate_naive_order p sig =
        some { symbol := sig.symbol, order_type := "MKT",
               quantity := Int.floor (100 * sig.strength), direction := "BUY" }) ∧
    (sig.signal_type = "SHORT" → q = 0 →
      generate_naive_order p sig =
        some { symbol := sig.symbol, order_type := "MKT",
               quantity := Int.floor (100 * sig.strength), direction := "SELL" }) ∧
    (sig.signal_type = "EXIT" → 0 < q →
      generate_naive_order p sig =
        some { symbol := sig.symbol, order_type := "MKT",
               quantity := |q|, direction := "SELL" }) ∧
    (sig.signal_type = "EXIT" → q < 0 →
      generate_naive_order p sig =
        some { symbol := sig.symbol, order_type := "MKT",
               quantity := |q|, direction := "BUY" }) ∧
    (¬(sig.signal_type = "LONG" ∧ q = 0) →
     ¬(sig.signal_type = "SHORT" ∧ q = 0) →
     ¬(sig.signal_type = "EXIT" ∧ q ≠ 0) →
      generate_naive_order p sig = none) := by
  refine ⟨?_, ?_, ?_, ?_, ?_⟩
  · intro hdir hq0
    simp [generate_naive_order, hq, hdir, hq0]
  · intro hdir hq0
    simp [generate_naive_order, hq, hdir, hq0]
  · intro hdir hpos
    have h2 : ¬ q = 0 := by omega
    have h3 : ¬ q < 0 := by omega
    simp [generate_naive_order, hq, hdir, hpos, h2, h3]
  · intro hdir hneg
    have h2 : ¬ q = 0 := by omega
    simp [generate_naive_order, hq, hdir, hneg, h2]
  · intro hA hB hC
    have c4f : ¬ (sig.signal_type = "EXIT" ∧ q < 0) := by
      rintro ⟨he, hlt⟩
      exact hC ⟨he, by omega⟩
    have c3f : ¬ (sig.signal_type = "EXIT" ∧ 0 < q) := by
      rintro ⟨he, hlt⟩
      exact hC ⟨he, by omega⟩
    simp only [generate_naive_order, hq, Option.getD_some]
    rw [if_neg c4f, if_neg c3f, if_neg hB, if_neg hA]

/-- Bar handler with one flat AAPL symbol, used to build the C4 portfolio. -/
def h4w : HistoricCSVDataHandler :=
  { symbol_list := ["AAPL"], symbol_data := [], latest_symbol_data := [],
    continue_backtest := true, events := [] }

/-- Freshly initialised portfolio for the C4 witness: AAPL position is 0. -/
def p4w : NaivePortfolio := NaivePortfolio.init h4w [] "20230215" 100000

/-- LONG signal with strength one half. -/
def sig4w : SignalEvent :=
  { symbol := "AAPL", datetime := DTime.str "d", signal_type := "LONG", strength := 1 / 2 }

/-- C4 witness: the theorem applied at a flat position and a LONG signal of
strength one half produces a BUY for floor(100 * 1/2) = 50 shares. -/
theorem c4_witness :
    generate_naive_order p4w sig4w =
      some { symbol := "AAPL", order_type := "MKT", quantity := 50, direction := "BUY" } := by
  have h := (c4_generate_naive_order_spec p4w sig4w 0 rfl (by norm_num [sig4w])
    (by norm_num [sig4w])).1 rfl rfl
  rw [h]
  norm_num [sig4w]

/-! ### C10 -/

/-- C10: immediately after construction, all_positions and all_holdings each
hold exactly one record; the position record assigns 0 to every symbol, the
holdings record has cash == total == initial capital, commission 0 and market
value 0 for every symbol, and the current dictionaries agree with those
records (portfolio.py lines 50-119). -/
theorem c10_initial_portfolio (bars : HistoricCSVDataHandler) (ev : List (Option Event))
    (sd : String) (ic : ℚ) :
    let p := NaivePortfolio.init bars ev sd ic
    p.all_positions.length = 1 ∧
    p.all_holdings.length = 1 ∧
    (∀ r ∈ p.all_positions,
        r.datetime = DTime.str sd ∧
        (∀ s ∈ bars.symbol_list, r.positions.lookup s = some (0 : ℤ)) ∧
        p.current_positions = r.positions) ∧
    (∀ r ∈ p.all_holdings,
        r.datetime = DTime.str sd ∧ r.cash = ic ∧ r.commission = 0 ∧ r.total = ic ∧
        (∀ s ∈ bars.symbol_list, r.values.lookup s = some (0 : ℚ)) ∧
        p.current_holdings.values = r.values) ∧
    p.current_holdings.cash = ic ∧
    p.current_holdings.commission = 0 ∧
    p.current_holdings.total = ic := by
  refine ⟨rfl, rfl, ?_, ?_, rfl, rfl, rfl⟩
  · intro r hr
    have hr' : r = { datetime := DTime.str sd,
                     positions := bars.symbol_list.map (fun s => (s, 0)) } := by
      simpa [NaivePortfolio.init, construct_all_positions] using hr
    subst hr'
    exact ⟨rfl, fun s hs => lookup_map_const 0 bars.symbol_list s hs, rfl⟩
  · intro r hr
    have hr' : r = { datetime := DTime.str sd,
                     values := bars.symbol_list.map (fun s => (s, 0)),
                     cash := ic, commission := 0, total := ic } := by
      simpa [NaivePortfolio.init, construct_all_holdings] using hr
    subst hr'
    exact ⟨rfl, rfl, rfl, rfl, fun s hs => lookup_map_const 0 bars.symbol_list s hs, rfl⟩

/-- The lone position record of the freshly built one-symbol portfolio. -/
def rec10 : PosSnap := { datetime := DTime.str "20230215", positions := [("AAPL", 0)] }

/-- C10 witness: the theorem instantiated at the one-symbol handler; the lone
position record stores 0 for AAPL. -/
theorem c10_witness : rec10.positions.lookup "AAPL" = some 0 :=
  ((c10_initial_portfolio h4w [] "20230215" 100000).2.2.1 rec10 (by decide)).2.1
    "AAPL" (by decide)

/-! ### C2 -/

/-- C2 (amended): on a FILL event, cash decreases by close * quantity +
commission for a BUY and increases by close * quantity - commission for a
SELL, where close is the Close price of the symbol's latest bar from the data
handler — the FillEvent's own fill_cost field is never read
(portfolio.py lines 174-204). -/
theorem c2_update_fill_cash (h : HistoricCSVDataHandler) (p p' : NaivePortfolio)
    (f : FillEvent) (b : Bar) (bs : List Bar)
    (hb : get_latest_bars h f.symbol 1 = some (b :: bs))
    (hres : update_fill h p (Event.fill f) = some p') :
    (f.direction = "BUY" →
      p'.current_holdings.cash =
        p.current_holdings.cash - (b.Close * (f.quantity : ℚ) + f.commission)) ∧
    (f.direction = "SELL" →
      p'.current_holdings.cash =
        p.current_holdings.cash + b.Close * (f.quantity : ℚ) - f.commission) := by
  simp only [update_fill] at hres
  cases hpos : update_positions_from_fill p f with
  | none => rw [hpos] at hres; exact absurd hres (by simp)
  | some p1 =>
    rw [hpos] at hres
    rw [Option.some_bind] at hres
    have hch : p1.current_holdings = p.current_holdings := by
      simp only [update_positions_from_fill, Option.map_eq_some'] at hpos
      obtain ⟨pos', _, hp1⟩ := hpos
      rw [← hp1]
    simp only [update_holdings_from_fill, hb] at hres
    split at hres
    · exact absurd hres (by simp)
    · rw [Option.some.injEq] at hres
      subst hres
      constructor
      · intro hdir
        simp only [hdir, hch]
        norm_num
      · intro hdir
        have hne : ¬ ("SELL" : String) = "BUY" := by decide
        simp only [hdir, hch, if_neg hne, if_pos rfl]
        norm_num
        ring

/-- Handler whose latest AAPL-free bar list holds one bar for symbol A with
Close = 10; used by C2. -/
def hC2 : HistoricCSVDataHandler :=
  { symbol_list := ["A"]
    symbol_data := []
    latest_symbol_data := [("A", [{ Date := 0, Open := 9, High := 11, Low := 8,
                                    Close := 10, Volume := 100 }])]
    continue_backtest := true
    events := [] }

/-- The latest bar of symbol A inside hC2. -/
def barC2 : Bar := { Date := 0, Open := 9, High := 11, Low := 8, Close := 10, Volume := 100 }

/-- Flat portfolio over symbol A with cash 1000; used by C2. -/
def pC2 : NaivePortfolio :=
  { symbol_list := ["A"]
    start_date := "sd"
    initial_capital := 1000
    all_positions := construct_all_positions ["A"] "sd"
    current_positions := [("A", 0)]
    all_holdings := construct_all_holdings ["A"] "sd" 1000
    current_holdings := { values := [("A", 0)], cash := 1000, commission := 0, total := 1000 }
    events := [] }

/-- BUY fill for 2 shares of A whose carried fill_cost field is 500 and whose
commission is 1; the code prices the fill at the latest Close of 10 instead. -/
def fC2 : FillEvent :=
  { symbol := "A", datetime := DTime.day 0, exchange := "SIM",
    quantity := 2, direction := "BUY", fill_cost := 500, commission := 1 }

/-- The portfolio produced by update_fill on hC2 / pC2 / fC2. -/
def c2res : NaivePortfolio :=
  { pC2 with
    current_positions := [("A", 2)]
    current_holdings := { values := [("A", 20)], cash := 979, commission := 1, total := 979 } }

/-- Evaluation of update_fill at the concrete C2 scenario.  Rational
normalisation does not reduce definitionally, so the record fields are
established by simp and norm_num. -/
theorem c2res_eval : update_fill hC2 pC2 (Event.fill fC2) = some c2res := by
  simp only [update_fill, update_positions_from_fill, update_holdings_from_fill,
    get_latest_bars, hC2, pC2, fC2, c2res, barC2]
  norm_num [updateEntry]

/-- C2 counterexample: processing fC2 leaves cash at 1000 - (10*2 + 1) = 979,
not at 1000 - (fill_cost + commission) = 1000 - 501 = 499 as the claim,
which uses the FillEvent's carried fill_cost field, requires. -/
theorem c2_counterexample :
    update_fill hC2 pC2 (Event.fill fC2) = some c2res ∧
    c2res.current_holdings.cash ≠
      pC2.current_holdings.cash - (fC2.fill_cost + fC2.commission) := by
  refine ⟨c2res_eval, ?_⟩
  show (979 : ℚ) ≠ 1000 - (500 + 1)
  norm_num

/-- C2 witness: the amended theorem applied at the concrete BUY fill. -/
theorem c2_witness :
    c2res.current_holdings.cash =
      pC2.current_holdings.cash - (barC2.Close * (fC2.quantity : ℚ) + fC2.commission) :=
  (c2_update_fill_cash hC2 pC2 c2res fC2 barC2 [] rfl c2res_eval).1 rfl

/-! ### C5 -/

theorem scanWindows_eq (minima maxima : List (ℤ × ℚ)) :
    ∀ mm : List (ℤ × ℚ),
      scanWindows minima maxima mm =
        ((windowsOf mm).filter
            (fun w => windowAccepted minima maxima w.1 w.2.1 w.2.2)).map
          (fun w => (w.1.1, w.2.1.1, w.2.2.1))
  | [] => rfl
  | [_] => rfl
  | [_, _] => rfl
  | a :: b :: c :: rest => by
      have ih := scanWindows_eq minima maxima (b :: c :: rest)
      simp only [scanWindows, windowsOf, List.filter_cons]
      cases hacc : windowAccepted minima maxima a b c with
      | false => simpa [hacc] using ih
      | true => simpa [hacc] using ih

/-- C5: pattern_scanner records a 3-point window (A, B, C) of the merged and
date-sorted extrema series exactly when all four conditions hold — span of at
most 100 days, B among the minima values with A and C among the maxima
values, B strictly below A and C, and the two tops within one tenth of their
mean (strategy.py lines 196-241).  The first conjunct states the recorded
list as the filter of the consecutive windows by exactly those conditions;
the second conjunct gives the claim's corollary: a window whose trough B
is above A is never accepted, whatever its dates or symmetry. -/
theorem c5_pattern_scanner_spec (minima maxima : List (ℤ × ℚ)) :
    (pattern_scanner minima maxima =
      ((windowsOf (sortByDate (minima ++ maxima))).filter
          (fun w => windowAccepted minima maxima w.1 w.2.1 w.2.2)).map
        (fun w => (w.1.1, w.2.1.1, w.2.2.1))) ∧
    (∀ a b c : ℤ × ℚ, a.2 < b.2 → windowAccepted minima maxima a b c = false) := by
  constructor
  · exact scanWindows_eq minima maxima _
  · intro a b c hab
    have hnot : ¬ (b.2 < a.2) := lt_asymm hab
    simp [windowAccepted, hnot]

/-- C5 witness: a peak-trough-peak window whose middle point lies above the
first point is rejected by the scanner's conditions. -/
theorem c5_witness :
    windowAccepted [((1 : ℤ), (3 : ℚ))] [((0 : ℤ), (5 : ℚ)), ((2 : ℤ), (5 : ℚ))]
      (0, 5) (1, 7) (2, 5) = false :=
  (c5_pattern_scanner_spec [((1 : ℤ), (3 : ℚ))]
    [((0 : ℤ), (5 : ℚ)), ((2 : ℤ), (5 : ℚ))]).2 (0, 5) (1, 7) (2, 5) (by norm_num)

/-! ### C6 -/

theorem find_first_in_sorted {p : Bar → Bool} :
    ∀ l : List Bar, l.Pairwise (fun x y => x.Date < y.Date) →
      ∀ b, l.find? p = some b → ∀ x ∈ l, x.Date < b.Date → p x = false
  | [], _, b, hfind => by simp at hfind
  | y :: ys, hp, b, hfind => by
      intro x hx hlt
      rw [List.find?_cons] at hfind
      cases hpy : p y with
      | true =>
        rw [hpy] at hfind
        have hby : b = y := by
          simpa using hfind.symm
        subst hby
        rcases List.mem_cons.mp hx with rfl | hx'
        · exact absurd hlt (lt_irrefl _)
        · have := (List.pairwise_cons.mp hp).1 x hx'
          exact absurd hlt (by omega)
      | false =>
        rw [hpy] at hfind
        rcases List.mem_cons.mp hx with rfl | hx'
        · exact hpy
        · exact find_first_in_sorted ys (List.pairwise_cons.mp hp).2 b hfind x hx' hlt

/-- C6 (amended): for a detected row, get_ConfDate's row computation sets
confirmation_date to the first date AT OR AFTER top2_date whose Close is
strictly below neck1_price — pandas loc slicing at strategy.py line 260
includes the top2_date label itself, so the scan is not strictly after
top2_date — and sets time_for_confirmation to that date minus top2_date in
days; when no bar at or after top2_date closes below the neckline, no
confirmation date is recorded. -/
theorem c6_confirm_row_spec (data : List Bar) (r : PatternRow) (t2 : ℤ) (nk : ℚ)
    (hsort : data.Pairwise (fun x y => x.Date < y.Date))
    (ht2 : r.top2_date = some t2) (hnk : r.neck1_price = some nk) :
    (∀ d, (confirm_row data r).confirmation_date = some d →
        t2 ≤ d ∧
        (∃ b ∈ data, b.Date = d ∧ b.Close < nk) ∧
        (∀ b ∈ data, t2 ≤ b.Date → b.Date < d → nk ≤ b.Close) ∧
        (confirm_row data r).time_for_confirmation = some (d - t2)) ∧
    ((confirm_row data r).confirmation_date = none →
        ∀ b ∈ data, t2 ≤ b.Date → nk ≤ b.Close) := by
  simp only [confirm_row, ht2, hnk]
  have hsortf : (data.filter (fun b => decide (t2 ≤ b.Date))).Pairwise
      (fun x y => x.Date < y.Date) :=
    hsort.sublist (List.filter_sublist data)
  cases hf : (data.filter (fun b => decide (t2 ≤ b.Date))).find?
      (fun b => decide (b.Close < nk)) with
  | some b0 =>
    constructor
    · intro d hd
      have hd0 : d = b0.Date := by simpa using hd.symm
      subst hd0
      have hmemf := List.mem_of_find?_eq_some hf
      have hmem := (List.mem_filter.mp hmemf).1
      have hge : t2 ≤ b0.Date := by
        have := (List.mem_filter.mp hmemf).2
        simpa using this
      have hcl : b0.Close < nk := by
        have := List.find?_some hf
        simpa using this
      refine ⟨hge, ⟨b0, hmem, rfl, hcl⟩, ?_, rfl⟩
      intro x hxd hxge hxlt
      have hxf : x ∈ data.filter (fun b => decide (t2 ≤ b.Date)) :=
        List.mem_filter.mpr ⟨hxd, by simpa using hxge⟩
      have := find_first_in_sorted _ hsortf b0 hf x hxf hxlt
      simpa using this
    · intro hnone
      exact absurd hnone (by simp)
  | none =>
    constructor
    · intro d hd
      exact absurd hd (by simp)
    · intro _ b hb hge
      have hbf : b ∈ data.filter (fun bb => decide (t2 ≤ bb.Date)) :=
        List.mem_filter.mpr ⟨hb, by simpa using hge⟩
      have := List.find?_eq_none.mp hf b hbf
      simpa using this

/-- Bars used by the C6 counterexample: the Close at top2_date itself (day 0)
is already below the neckline of 100, while the first bar strictly after day 0
closing below 100 is day 2. -/
def exData6a : List Bar :=
  [{ Date := 0, Open := 95, High := 96, Low := 94, Close := 95, Volume := 1 },
   { Date := 1, Open := 101, High := 102, Low := 100, Close := 101, Volume := 1 },
   { Date := 2, Open := 90, High := 91, Low := 89, Close := 90, Volume := 1 }]

/-- Detected row with top2_date = 0 and neck1_price = 100. -/
def exRow6a : PatternRow :=
  { is_detected := true
    top1_date := some (-9), neck1_date := some (-4), top2_date := some 0
    top1_price := some 101, neck1_price := some 100, top2_price := some 101 }

/-- C6 counterexample: the code records confirmation_date = 0, the top2_date
bar itself (Close 95 < 100), which is not strictly after top2_date = 0; the
first date strictly after top2_date with Close below the neckline would be
day 2.  The claim's "first date strictly after top2_date" is therefore false
on the code. -/
theorem c6_counterexample :
    (confirm_row exData6a exRow6a).confirmation_date = some 0 ∧
    ¬ (0 : ℤ) < 0 ∧
    ((exData6a.filter (fun b => decide ((0 : ℤ) < b.Date))).find?
        (fun b => decide (b.Close < 100))).map (fun b => b.Date) = some 2 := by
  refine ⟨by decide, by decide, by decide⟩

/-- Bars used by the C6 witness, matching the spec's own example: the Close
stays at or above the neckline of 100 until three days after top2_date = 10,
when it drops to 95. -/
def exData6b : List Bar :=
  [{ Date := 10, Open := 101, High := 103, Low := 100, Close := 101, Volume := 1 },
   { Date := 11, Open := 102, High := 104, Low := 100, Close := 102, Volume := 1 },
   { Date := 12, Open := 101, High := 102, Low := 100, Close := 101, Volume := 1 },
   { Date := 13, Open := 96, High := 97, Low := 94, Close := 95, Volume := 1 }]

/-- Detected row with top2_date = 10 and neck1_price = 100. -/
def exRow6b : PatternRow :=
  { is_detected := true
    top1_date := some 1, neck1_date := some 5, top2_date := some 10
    top1_price := some 103, neck1_price := some 100, top2_price := some 104 }

/-- C6 witness: the amended theorem applied at the spec's example gives
time_for_confirmation = 13 - 10 = 3 days. -/
theorem c6_witness :
    (confirm_row exData6b exRow6b).time_for_confirmation = some (13 - 10) :=
  ((c6_confirm_row_spec exData6b exRow6b 10 100 (by decide) rfl rfl).1 13
    (by decide)).2.2.2

/-! ### C7 -/

/-- C7 (amended): a detected row whose neckline has not been broken does NOT
survive get_ConfDate — the dropna at strategy.py line 278 operates in place on
the symbol's persistent table, so pending rows are permanently removed rather
than kept for re-evaluation.  The first conjunct computes the resulting table
as the breakout rows only; the second states that every surviving row carries
a confirmation date and is marked confirmed, so no pending row remains in any
form. -/
theorem c7_pending_rows_dropped (data : List Bar) (table : List PatternRow) :
    (get_ConfDate data table =
      (((table.map (confirm_row data)).map
          (fun r => { r with signal := some (-1) })).filter rowComplete).map
        (fun r => { r with is_confirmed := true })) ∧
    (∀ r ∈ get_ConfDate data table,
        r.confirmation_date.isSome = true ∧ r.is_confirmed = true) := by
  have heq : get_ConfDate data table =
      (((table.map (confirm_row data)).map
          (fun r => { r with signal := some (-1) })).filter rowComplete).map
        (fun r => { r with is_confirmed := true }) := by
    simp only [get_ConfDate]
    by_cases h0 : table.length ≠ 0
    · simp only [if_pos h0]
      by_cases h3 : (((table.map (confirm_row data)).map
          (fun r => { r with signal := some (-1) })).filter rowComplete).length ≠ 0
      · simp only [if_pos h3]
      · simp only [if_neg h3]
        have : ((table.map (confirm_row data)).map
            (fun r => { r with signal := some (-1) })).filter rowComplete = [] := by
          rcases List.length_eq_zero.mp (by omega : (((table.map (confirm_row data)).map
            (fun r => { r with signal := some (-1) })).filter rowComplete).length = 0) with h
          exact h
        rw [this]
        rfl
    · simp only [if_neg h0]
      have : table = [] := List.length_eq_zero.mp (by omega)
      subst this
      rfl
  refine ⟨heq, ?_⟩
  intro r hr
  rw [heq] at hr
  rcases List.mem_map.mp hr with ⟨r0, hr0, hr0eq⟩
  have hcomp : rowComplete r0 = true := (List.mem_filter.mp hr0).2
  have hconf : r0.confirmation_date.isSome = true := by
    simp only [rowComplete, Bool.and_eq_true] at hcomp
    exact hcomp.1.1.2
  constructor
  · rw [← hr0eq]
    exact hconf
  · rw [← hr0eq]

/-- Bars used by the C7 counterexample: after top2_date = 0 the Close never
drops below the neckline of 100. -/
def exData7 : List Bar :=
  [{ Date := 0, Open := 150, High := 151, Low := 149, Close := 150, Volume := 1 },
   { Date := 1, Open := 120, High := 121, Low := 119, Close := 120, Volume := 1 }]

/-- Detected-but-pending row: its neckline of 100 is never broken. -/
def exRow7 : PatternRow :=
  { is_detected := true
    top1_date := some (-9), neck1_date := some (-5), top2_date := some 0
    top1_price := some 150, neck1_price := some 100, top2_price := some 150 }

/-- C7 counterexample: the pending row's neckline is never broken, and
get_ConfDate deletes it — the resulting persistent table is empty, so the row
does not remain present for re-evaluation as the claim states. -/
theorem c7_counterexample :
    ((exData7.filter (fun b => decide ((0 : ℤ) ≤ b.Date))).find?
        (fun b => decide (b.Close < 100))) = none ∧
    get_ConfDate exData7 [exRow7] = [] := by
  refine ⟨by decide, by decide⟩

/-- The confirmed row produced by get_ConfDate on the C6 witness data. -/
def row7w : PatternRow :=
  { exRow6b with
    confirmation_date := some 13
    time_for_confirmation := some 3
    signal := some (-1)
    is_confirmed := true }

/-- C7 witness: the theorem applied at a table whose single row does break its
neckline; the surviving row carries a confirmation date and the confirmed
flag. -/
theorem c7_witness : row7w.confirmation_date.isSome = true ∧ row7w.is_confirmed = true :=
  (c7_pending_rows_dropped exData6b [exRow6b]).2 row7w (by decide)

/-! ### C8 -/

theorem update_bars_go_events :
    ∀ (l : List String) (acc out : HistoricCSVDataHandler),
      update_bars_go acc l = some out → out.events = acc.events
  | [], acc, out, h => by
      simp only [update_bars_go, Option.some.injEq] at h
      rw [← h]
  | s :: rest, acc, out, h => by
      simp only [update_bars_go] at h
      split at h
      · exact absurd h (by simp)
      · have ih := update_bars_go_events rest _ out h
        exact ih
      · split at h
        · exact absurd h (by simp)
        · have ih := update_bars_go_events rest _ out h
          exact ih

theorem update_bars_go_exhausted :
    ∀ (l : List String) (acc : HistoricCSVDataHandler), l ≠ [] →
      (∀ s ∈ l, acc.symbol_data.lookup s = some []) →
      update_bars_go acc l = some { acc with continue_backtest := false }
  | [], _, hne, _ => absurd rfl hne
  | s :: rest, acc, _, hex => by
      have hlk : acc.symbol_data.lookup s = some [] := hex s (List.mem_cons_self s rest)
      simp only [update_bars_go, hlk]
      cases rest with
      | nil => rfl
      | cons t ts =>
        have hex' : ∀ x ∈ t :: ts, ({ acc with continue_backtest := false } :
            HistoricCSVDataHandler).symbol_data.lookup x = some [] := by
          intro x hx
          exact hex x (List.mem_cons_of_mem s hx)
        have := update_bars_go_exhausted (t :: ts)
          { acc with continue_backtest := false } (by simp) hex'
        rw [this]

/-- C8 (amended): update_bars puts exactly one MarketEvent on the queue on
EVERY call — the put at datahandler.py line 150 sits outside the per-symbol
loop and runs whether or not any stream was exhausted — while exhaustion of
every symbol's stream leaves the handler unchanged except for setting
continue_backtest to False; the simulation loop (main.py lines 28-33) stops
advancing by observing that flag before calling update_bars again. -/
theorem c8_update_bars_spec (h h' : HistoricCSVDataHandler)
    (hres : update_bars h = some h') :
    (h'.events = h.events ++ [some Event.market]) ∧
    ((h.symbol_list ≠ [] ∧ ∀ s ∈ h.symbol_list, h.symbol_data.lookup s = some []) →
        h'.continue_backtest = false) ∧
    (h.continue_backtest = false → loop_step h = none) := by
  simp only [update_bars, Option.map_eq_some'] at hres
  obtain ⟨out, hgo, hout⟩ := hres
  refine ⟨?_, ?_, ?_⟩
  · rw [← hout]
    simp [update_bars_go_events h.symbol_list h out hgo]
  · rintro ⟨hne, hex⟩
    have := update_bars_go_exhausted h.symbol_list h hne hex
    rw [this] at hgo
    have hout' : out = { h with continue_backtest := false } := by
      simpa using hgo.symm
    rw [← hout, hout']
  · intro hcb
    simp [loop_step, hcb]

/-- Fully exhausted handler: the single symbol's stream is empty. -/
def hW8 : HistoricCSVDataHandler :=
  { symbol_list := ["A"]
    symbol_data := [("A", [])]
    latest_symbol_data := [("A", [{ Date := 0, Open := 1, High := 1, Low := 1,
                                    Close := 1, Volume := 1 }])]
    continue_backtest := true
    events := [] }

/-- What update_bars makes of hW8. -/
def outW8 : HistoricCSVDataHandler :=
  { hW8 with continue_backtest := false, events := [some Event.market] }

/-- C8 counterexample: with every symbol's source exhausted, update_bars still
pushes one MarketEvent (the queue grows from [] to one element) while flipping
continue_backtest; the claim's "pushes no MarketEvent once every symbol's
source is exhausted" is false. -/
theorem c8_counterexample :
    hW8.symbol_data.lookup "A" = some [] ∧
    update_bars hW8 = some outW8 ∧
    outW8.events = [some Event.market] ∧
    outW8.events ≠ hW8.events := by
  refine ⟨rfl, rfl, rfl, by decide⟩

/-- C8 witness: the amended theorem applied at the exhausted handler shows the
flag flip. -/
theorem c8_witness : outW8.continue_backtest = false :=
  (c8_update_bars_spec hW8 outW8 rfl).2.1 ⟨by decide, by decide⟩

/-! ### C9 -/

/-- C9 (amended): when a symbol of the portfolio's list is absent from the
Bar Source, get_latest_bars itself is non-fatal — the KeyError is caught, a
message printed and Python None returned — but update_timeindex does NOT fail
silently: it has no handler, so indexing the absent result raises an uncaught
TypeError (modelled by the none result) instead of returning after a logged
warning; no snapshot is produced. -/
theorem c9_unavailable_raises (h : HistoricCSVDataHandler) (p : NaivePortfolio) (s : String)
    (hs : s ∈ p.symbol_list)
    (habs : h.latest_symbol_data.lookup s = none) :
    update_timeindex h p = none ∧ ∀ N, get_latest_bars h s N = none := by
  have hglb : ∀ N, get_latest_bars h s N = none := by
    intro N
    simp [get_latest_bars, habs]
  have hmv : market_value_of h p s = none := by
    cases hq : p.current_positions.lookup s with
    | none => simp [market_value_of, hq]
    | some q => simp [market_value_of, hq, hglb 1]
  have hall : lookupAll (fun t => market_value_of h p t) p.symbol_list = none :=
    lookupAll_none _ p.symbol_list s hs hmv
  refine ⟨?_, hglb⟩
  simp only [update_timeindex]
  cases hL : p.symbol_list.getLast? with
  | none => rfl
  | some sLast =>
    simp only [hall, Option.map_none', bind_fun_none]

/-- Handler that knows no symbol at all. -/
def exH9 : HistoricCSVDataHandler :=
  { symbol_list := [], symbol_data := [], latest_symbol_data := [],
    continue_backtest := true, events := [] }

/-- Portfolio whose symbol list contains A, absent from exH9. -/
def exP9 : NaivePortfolio :=
  { symbol_list := ["A"]
    start_date := "sd"
    initial_capital := 1000
    all_positions := construct_all_positions ["A"] "sd"
    current_positions := [("A", 0)]
    all_holdings := construct_all_holdings ["A"] "sd" 1000
    current_holdings := { values := [("A", 0)], cash := 1000, commission := 0, total := 1000 }
    events := [] }

/-- C9 counterexample: with symbol A absent from the handler,
update_timeindex raises (result none) instead of returning normally after a
warning as the claim states; in particular it is not a silent no-op return. -/
theorem c9_counterexample : update_timeindex exH9 exP9 = none := by
  decide

/-- C9 witness: the theorem applied at the concrete absent-symbol state;
get_latest_bars for the unknown symbol yields the absent result. -/
theorem c9_witness : get_latest_bars exH9 "A" 3 = none :=
  (c9_unavailable_raises exH9 exP9 "A" (by decide) rfl).2 3

end EventChain
